import Mathlib

/-!
Verification of the BetterWinDocs asynchronous lookup subsystem.

The definitions below are a shallow embedding of the Python sources:
  * `src/sidebar.py`: name normalization, the documentation cache, the
    one-shot lookup worker (`ScrapperThread.run`) and the sidebar's
    request coordination (`on_xref_selection` / `on_done` / `_on_timeout`).
  * `src/api.py`: the `MSFTLearnScrapper` search-result selection and
    ANSI/Unicode fallback resolution.

External effects (network, HTML parsing, Qt timers, the file system) are
modelled by explicit parameters and state, never by IO.  String operations
are carried out on `List Char` (`String.data`) so that every definition
evaluates inside the kernel; the helpers below mirror the Python string
methods the source uses (`strip`, `startswith`, `split`, `join`, ...).
-/

namespace BetterWinDocs

/-- Python `str.strip()` on a character list: drop leading and trailing
whitespace. -/
def trimChars (l : List Char) : List Char :=
  ((l.dropWhile Char.isWhitespace).reverse.dropWhile Char.isWhitespace).reverse

/-- Python `str.startswith`: `isPrefixL p s` is true when `p` is a prefix
of `s`. -/
def isPrefixL : List Char → List Char → Bool
  | [], _ => true
  | _ :: _, [] => false
  | a :: as, b :: bs => a == b && isPrefixL as bs

/-- Python `str.split(sep)` for a one-character separator: splits at every
occurrence, keeping empty pieces. -/
def splitOnChar (sep : Char) : List Char → List (List Char)
  | [] => [[]]
  | c :: rest =>
    if c == sep then [] :: splitOnChar sep rest
    else
      match splitOnChar sep rest with
      | h :: t => (c :: h) :: t
      | [] => [[c]]

/-- Python `sep.join(parts)` for a one-character separator. -/
def joinWith (sep : Char) : List (List Char) → List Char
  | [] => []
  | [x] => x
  | x :: xs => x ++ sep :: joinWith sep xs

/-- Python `str.strip()` at the `String` level. -/
def pyStrip (s : String) : String := ⟨trimChars s.data⟩

/-- Models `_normalize_symbol_name` from `src/sidebar.py` on the underlying
character list: strip whitespace, drop everything up to the first `!`
module qualifier, strip an `__imp_` import decoration, strip one leading
underscore, strip a trailing `@digits` stdcall decoration, and strip
again. -/
def normalizeChars (l : List Char) : List Char :=
  let s := trimChars l
  -- s.split("!", 1)[1].strip() when "!" occurs in s
  let s :=
    match splitOnChar '!' s with
    | [] => s
    | [_] => s
    | _ :: rest => trimChars (joinWith '!' rest)
  let s := if isPrefixL "__imp_".data s then s.drop 6 else s
  let s := if isPrefixL "_".data s then s.drop 1 else s
  -- base, maybe = s.rsplit("@", 1); keep base when maybe is all digits
  let s :=
    match (splitOnChar '@' s).reverse with
    | maybe :: b :: bs =>
      if maybe ≠ [] ∧ maybe.all Char.isDigit then joinWith '@' (b :: bs).reverse
      else s
    | _ => s
  trimChars s

/-- Models `_normalize_symbol_name` from `src/sidebar.py` (the `if not
name: return ""` early exit, then the character-list pipeline). -/
def normalizeSymbolName (name : String) : String :=
  if name = "" then "" else ⟨normalizeChars name.data⟩

/-- Models `_looks_like_local` from `src/sidebar.py`: true for the empty
string and for `sub_` / `j_sub_` local-symbol prefixes. -/
def looksLikeLocal (name : String) : Bool :=
  name == "" || isPrefixL "sub_".data name.data || isPrefixL "j_sub_".data name.data

/-! ## The document fetcher (`src/api.py`, class `MSFTLearnScrapper`) -/

/-- Python `pat in hay` substring test on character lists. -/
def subListOf (pat : List Char) : List Char → Bool
  | [] => pat.isEmpty
  | c :: rest => isPrefixL pat (c :: rest) || subListOf pat rest

def DOCS_HOST : String := "https://learn.microsoft.com"

def WIN32_API_PATH : String := "/windows/win32/api/"

/-- One element of the search endpoint's `results` list: a `title` / `url`
pair, either of which may be absent (Python `res.get(...)` yielding
`None`). -/
structure SearchEntry where
  title : Option String
  url : Option String
  deriving DecidableEq, Repr

/-- Python `(res.get("title") or "").strip()`. -/
def entryTitle (r : SearchEntry) : String := pyStrip (r.title.getD "")

/-- Python `(res.get("url") or "").strip()`. -/
def entryUrl (r : SearchEntry) : String := pyStrip (r.url.getD "")

/-- Relative URLs are resolved against the documentation host
(`if candidate_url.startswith("/"): candidate_url = DOCS_HOST + candidate_url`). -/
def resolveUrl (u : String) : String :=
  if isPrefixL "/".data u.data then DOCS_HOST ++ u else u

/-- Python `end < len(title) and title[end].islower()` where `end` is the
length of the matched prefix: the character right after the prefix, when
the title is longer, is a lowercase letter. -/
def charAfterIsLower (t : String) (n : Nat) : Bool :=
  match t.data.drop n with
  | c :: _ => c.isLower
  | [] => false

/-- Models the result-selection loop of `MSFTLearnScrapper._init_from_name`
(`src/api.py` lines 73-99): walk the ordered result list and return the
first acceptable (resolved) URL, skipping entries without a URL, entries
outside the Win32 API documentation path, entries whose title does not
start with the candidate name, and entries where the character right after
the matched prefix is lowercase. -/
def selectDocUrl (name : String) : List SearchEntry → Option String
  | [] => none
  | r :: rest =>
    let t := pyStrip (r.title.getD "")
    let u0 := pyStrip (r.url.getD "")
    if u0 = "" then selectDocUrl name rest
    else
      let u := resolveUrl u0
      if !(subListOf WIN32_API_PATH.data u.data) then selectDocUrl name rest
      else if !(isPrefixL name.data t.data) then selectDocUrl name rest
      else if charAfterIsLower t name.length then selectDocUrl name rest
      else some u

/-- Written from the spec's words for the refinement claim C7: an entry is
acceptable when its URL is present, falls under the platform API
documentation path once resolved, its title starts with the candidate
name, and the character right after the matched prefix (when the title is
longer) is not a lowercase letter. -/
def goodEntry (name : String) (r : SearchEntry) : Bool :=
  entryUrl r != "" &&
    subListOf WIN32_API_PATH.data (resolveUrl (entryUrl r)).data &&
    isPrefixL name.data (entryTitle r).data &&
    !(charAfterIsLower (entryTitle r) name.length)

/-- The parsed representation of a fetched documentation page, holding the
fields `_init_from_name` extracts from the HTML: the `og:description` meta
content (`""` when absent), the Syntax section's extracted text
(`get_syntax`'s result on this soup: `none` when the page has no
`Syntax` h2), and the heading-to-paragraphs map `h2_titles`. -/
structure Page where
  ogDescription : String
  syntaxText : Option String
  sections : List (String × List String)
  deriving DecidableEq, Repr

/-- The search-and-fetch environment: the remote search endpoint's result
list for a query, and the parsed page behind a URL. -/
structure DocsEnv where
  results : String → List SearchEntry
  fetchPage : String → Page

/-- Models `_init_from_name` given the search response: the page is fetched
exactly when the selection loop found a URL. -/
def initFromName (fetchPage : String → Page) (name : String)
    (results : List SearchEntry) : Option Page :=
  (selectDocUrl name results).map fetchPage

/-- One search-and-fetch attempt for a candidate name. -/
def searchPage (env : DocsEnv) (name : String) : Option Page :=
  initFromName env.fetchPage name (env.results name)

/-- The scrapper's state after `MSFTLearnScrapper.__init__`: the requested
name, the resolved name (Python `resolved_name`, `none` when unset) and
the fetched page (`none` models `soup is None`). -/
structure Scrapper where
  requestedName : String
  resolvedName : Option String
  page : Option Page
  deriving DecidableEq, Repr

/-- Models `MSFTLearnScrapper.__init__` (`src/api.py` lines 40-56): try the
exact name; if that fails and the name ends in `A` or `W`, try the base
with the char-width suffix stripped, resolving an ANSI (`A`) request to
the Unicode (`W`) form. -/
def mkScrapper (env : DocsEnv) (function : String) : Scrapper :=
  match searchPage env function with
  | some p => ⟨function, some function, some p⟩
  | none =>
    -- if function and function[-1] in ("A", "W")
    match function.data.getLast? with
    | some c =>
      if c = 'A' ∨ c = 'W' then
        let base : String := ⟨function.data.dropLast⟩
        match searchPage env base with
        | some p =>
          ⟨function, some (if c = 'A' then base ++ "W" else function), some p⟩
        | none => ⟨function, none, none⟩
      else ⟨function, none, none⟩
    | none => ⟨function, none, none⟩

/-- Models `MSFTLearnScrapper.get_syntax`: `none` when `soup is None`,
otherwise the Syntax section extraction recorded on the page. -/
def getSyntaxText (scr : Scrapper) : Option String :=
  scr.page.bind Page.syntaxText

/-- Models `MSFTLearnScrapper.found_function_docs`: a Syntax section
exists. -/
def foundFunctionDocs (scr : Scrapper) : Bool :=
  (getSyntaxText scr).isSome

/-- Models `MSFTLearnScrapper.get_description`: the not-found message when
there is no page; `""` when `check` is set and the page has no Syntax
section; otherwise the `og:description` text, prefixed with a resolution
note whenever the resolved name is set, non-empty and different from the
requested one. -/
def getDescription (scr : Scrapper) (check : Bool) : String :=
  match scr.page with
  | none => "No Win32 docs found for " ++ scr.requestedName
  | some p =>
    if check && (getSyntaxText scr).isNone then ""
    else
      let baseDesc := p.ogDescription
      let note :=
        match scr.resolvedName with
        | some r =>
          if r != "" && r != scr.requestedName then
            "[Docs resolved to: " ++ r ++ " (requested: " ++ scr.requestedName ++ ")]\n\n"
          else ""
        | none => ""
      note ++ baseDesc

/-- Models `MSFTLearnScrapper.get_return_value`: the paragraphs recorded
under the `Return value` heading. -/
def getReturnValue (scr : Scrapper) : Option (List String) :=
  match scr.page with
  | some p => List.lookup "Return value" p.sections
  | none => none

/-! ## The on-disk cache and the lookup worker (`src/sidebar.py`,
`ScrapperThread.run`) -/

/-- JSON values, as far as the cache file is concerned. -/
inductive Json where
  | null
  | bool (b : Bool)
  | str (s : String)
  | num (n : Int)
  | obj (fields : List (String × Json))

/-- The loaded cache document: a mapping from function name to the stored
JSON value. -/
def Cache := String → Option Json

/-- Python dict assignment `cache[name] = entry`. -/
def cacheInsert (c : Cache) (k : String) (v : Json) : Cache :=
  fun q => if q = k then some v else c q

/-- The outcome fields a `ScrapperThread` carries: `success`, `syntax`,
`description`, `return_value` (all initialised to `False` / `""`). -/
structure WorkerResult where
  success : Bool
  syntaxText : String
  description : String
  returnValue : String
  deriving DecidableEq, Repr

/-- The cache entry the worker writes for its outcome
(`src/sidebar.py` lines 174-179). -/
def mkCacheEntry (r : WorkerResult) : Json :=
  .obj [("found", .bool r.success), ("syntax", .str r.syntaxText),
        ("description", .str r.description), ("return_value", .str r.returnValue)]

/-- Python `entry.get(key, "") or ""` for the string fields of a cached
entry: a stored string comes back as is, anything else reads as `""`. -/
def jsonStrOr (v : Option Json) : String :=
  match v with
  | some (.str s) => s
  | _ => ""

/-- The entry-shape test of `ScrapperThread.run` (lines 138-148): when the
stored value is a dict (`isinstance(entry, dict)`) whose `found` field is
exactly the boolean `False` or exactly `True`, the result is built from
the entry; otherwise no short-circuit happens. -/
def hitOfEntry : Json → Option WorkerResult
  | .obj fields =>
    match List.lookup "found" fields with
    | some (.bool false) => some ⟨false, "", "", ""⟩
    | some (.bool true) =>
      some ⟨true, jsonStrOr (List.lookup "syntax" fields),
            jsonStrOr (List.lookup "description" fields),
            jsonStrOr (List.lookup "return_value" fields)⟩
    | _ => none
  | _ => none

/-- The cache-hit short-circuit of `ScrapperThread.run`: the run returns
before any network access exactly when the stored value for the key has
the worker's own entry shape. -/
def cacheHit (c : Cache) (name : String) : Option WorkerResult :=
  (c name).bind hitOfEntry

/-- The network path of `ScrapperThread.run` (lines 151-162): constructing
the scrapper may raise (modelled by `Except.error`), and an outcome counts
as found only when a page with a Syntax section was located. -/
def fetchOutcome (fetch : String → Except Unit Scrapper) (name : String) : WorkerResult :=
  match fetch name with
  | .error _ => ⟨false, "", "", ""⟩
  | .ok scr =>
    if scr.page.isNone || !(foundFunctionDocs scr) then ⟨false, "", "", ""⟩
    else
      ⟨true, (getSyntaxText scr).getD "",
        getDescription scr true,
        pyStrip (String.intercalate "\n" ((getReturnValue scr).getD []))⟩

/-- Models `ScrapperThread.run` as a whole: the result fields, the cache
mapping after the run, and whether the network was consulted.  An empty
name returns immediately; a well-formed cached entry short-circuits; any
other case queries the network and persists the outcome (negative results
included). -/
def workerRun (fetch : String → Except Unit Scrapper) (c : Cache) (name : String) :
    WorkerResult × Cache × Bool :=
  if name = "" then (⟨false, "", "", ""⟩, c, false)
  else
    match cacheHit c name with
    | some r => (r, c, false)
    | none =>
      let r := fetchOutcome fetch name
      (r, cacheInsert c name (mkCacheEntry r), true)

/-- A stored cache value of the shape the worker itself writes: a dict
whose `found` field is exactly a boolean. -/
def wellFormedEntry (e : Json) : Prop :=
  ∃ fields b, e = .obj fields ∧ List.lookup "found" fields = some (.bool b)

/-! ## The request coordinator (`src/sidebar.py`, `WinDocSidebar`) -/

/-- The four display fields of the sidebar
(`_function`, `_syntax`, `_description`, `_retval`). -/
structure UIState where
  functionText : String
  syntaxText : String
  descriptionText : String
  retvalText : String
  deriving DecidableEq, Repr

/-- An in-flight worker as the sidebar sees it: the generation it was
started for and the candidate name it is fetching. -/
structure WorkerRef where
  reqId : Nat
  name : String
  deriving DecidableEq, Repr

/-- The sidebar's request-coordination state: the generation counter
`_req_id`, the in-flight worker `_worker`, whether the single-shot
`_timeout` timer is armed, and the display fields. -/
structure CoordState where
  reqId : Nat
  worker : Option WorkerRef
  timerArmed : Bool
  ui : UIState
  deriving DecidableEq, Repr

/-- A fresh sidebar: generation 0, no worker, timer stopped, empty
labels. -/
def initState : CoordState :=
  ⟨0, none, false, ⟨"", "", "", ""⟩⟩

/-- What the UI execution context observes from one event: `applied` when
the `on_done` generation check passed and `_apply` ran (carrying the
delivered payload; the display fields change only when `success` holds),
`timedOut` when the timeout handler ran. -/
inductive Out where
  | applied (success : Bool) (name syntaxText desc rv : String)
  | timedOut
  deriving DecidableEq, Repr

/-- The events the coordinator reacts to. -/
inductive Event where
  | select (raw : String)
  | done (gotReqId : Nat) (name : String) (success : Bool) (syntaxText desc rv : String)
  | timeout
  deriving DecidableEq, Repr

/-- Models `WinDocSidebar.on_xref_selection` (lines 331-404) for a
selection that resolves to the raw symbol name `raw`: cancel any in-flight
worker and stop the timer, advance the generation, normalize, and — unless
the name looks local — spawn a worker for the new generation and arm the
timeout. -/
def stepSelect (s : CoordState) (raw : String) : CoordState × Option Out :=
  let s1 : CoordState := { s with worker := none, timerArmed := false }
  let s2 : CoordState := { s1 with reqId := s1.reqId + 1 }
  let name := pyStrip (normalizeSymbolName raw)
  if looksLikeLocal name then (s2, none)
  else ({ s2 with worker := some ⟨s2.reqId, name⟩, timerArmed := true }, none)

/-- Models the `on_done` callback and its `_apply` continuation (lines
382-400): a result whose generation differs from the current one is
discarded with no effect; otherwise the timer stops, the worker slot
clears, and on success the four display fields are set. -/
def stepDone (s : CoordState) (gotReqId : Nat) (name : String) (success : Bool)
    (syn desc rv : String) : CoordState × Option Out :=
  if gotReqId ≠ s.reqId then (s, none)
  else
    let s1 : CoordState := { s with timerArmed := false, worker := none }
    if success then
      ({ s1 with ui := ⟨name, syn, desc, rv⟩ }, some (.applied true name syn desc rv))
    else (s1, some (.applied false name syn desc rv))

/-- Models `WinDocSidebar._on_timeout` (lines 320-329): when the
single-shot timer fires it cancels the worker, clears the worker slot and
overwrites only the syntax display field with the timeout indicator. -/
def stepTimeout (s : CoordState) : CoordState × Option Out :=
  if s.timerArmed then
    ({ s with
        timerArmed := false,
        worker := none,
        ui := { s.ui with syntaxText := "Timed out while fetching docs." } },
      some .timedOut)
  else (s, none)

/-- One coordinator step. -/
def step (s : CoordState) : Event → CoordState × Option Out
  | .select raw => stepSelect s raw
  | .done g n success syn desc rv => stepDone s g n success syn desc rv
  | .timeout => stepTimeout s

/-- Run a list of events, collecting the UI-context observations in
order. -/
def runEvents (s : CoordState) : List Event → CoordState × List Out
  | [] => (s, [])
  | e :: es =>
    let p := step s e
    let q := runEvents p.1 es
    (q.1, p.2.toList ++ q.2)

/-! ## Atomic cache persistence (`src/sidebar.py`, `_atomic_write_json`) -/

/-- A file system: a mapping from path to file content (`none` = the path
does not exist). -/
def FS := String → Option String

/-- Write `content` at `p` (creating or truncating the file). -/
def fsWrite (fs : FS) (p content : String) : FS :=
  fun q => if q = p then some content else fs q

/-- `os.path.dirname` for slash-separated paths: everything before the
last `/`, or `""` when there is none. -/
def dirName (p : String) : String :=
  match (splitOnChar '/' p.data).reverse with
  | _ :: b :: bs => ⟨joinWith '/' (b :: bs).reverse⟩
  | _ => ""

/-- `os.replace(tmp, path)`: atomically rename `tmp` onto `path` in one
step — no observable state has a partial content at `path`. -/
def fsReplace (fs : FS) (tmp path : String) : FS :=
  fun q => if q = path then fs tmp else if q = tmp then none else fs q

/-- The `finally` cleanup of `_atomic_write_json`: remove the temporary
file if it still exists; the removal itself is best-effort (`removeOk`
false models an `OSError`, which the handler swallows).  The function is
total: cleanup never raises. -/
def cleanupTmp (fs : FS) (tmp : String) (removeOk : Bool) : FS :=
  if (fs tmp).isSome then
    if removeOk then fun q => if q = tmp then none else fs q
    else fs
  else fs

/-- Models `_atomic_write_json` (lines 85-99): `mkstemp` creates a fresh
temporary file in `dirname path` (the oracle `mk` picks its name),
`json.dump` writes the full serialization of `obj` into it (`dumpOk`
false models an exception while dumping, which propagates after the
`finally` cleanup), and `os.replace` atomically renames it onto `path`.
Returns the outcome, the final file-system state (defined in both branches:
the `finally` cleanup runs either way and never raises) and the trace of
intermediate file-system states. -/
def atomicWriteJson (mk : FS → String → String) (encode : Json → String)
    (fs : FS) (path : String) (obj : Json) (dumpOk removeOk : Bool) :
    Except Unit Unit × FS × List FS :=
  let d := dirName path
  let tmp := mk fs d
  let fs1 := fsWrite fs tmp ""
  if dumpOk then
    let fs2 := fsWrite fs1 tmp (encode obj)
    let fs3 := fsReplace fs2 tmp path
    let fs4 := cleanupTmp fs3 tmp removeOk
    (.ok (), fs4, [fs1, fs2, fs3, fs4])
  else
    let fs2 := cleanupTmp fs1 tmp removeOk
    (.error (), fs2, [fs1, fs2])

/-! ## Concrete data used by the witnesses -/

/-- A concrete parsed documentation page (the Unicode `OpenMutexW`
form). -/
def openMutexPage : Page :=
  ⟨"Opens an existing named mutex object.", some "HANDLE OpenMutexW(...)",
    [("Return value", ["If the function succeeds, the return value is a handle."])]⟩

/-- A concrete environment where only the base name `OpenMutex` has a
search result, pointing into the Win32 API documentation path. -/
def openMutexEnv : DocsEnv where
  results := fun n =>
    if n = "OpenMutex" then
      [⟨some "OpenMutexW function (synchapi.h)",
        some "/windows/win32/api/synchapi/nf-synchapi-openmutexw"⟩]
    else []
  fetchPage := fun _ => openMutexPage

/-- A concrete result list where the only candidate is rejected by the
lowercase-after-prefix rule (`"Open"` must not match `"Opened..."`). -/
def openDemoResults : List SearchEntry :=
  [⟨some "Opened files in a shared folder", some "/windows/win32/api/openfiles/nf-x"⟩]

/-! ## Helper lemmas -/

/-- A completion whose generation matches the current one always runs
`_apply`: the observation carries the delivered payload and the generation
counter is unchanged. -/
theorem stepDone_current (s : CoordState) (g : Nat) (hg : g = s.reqId)
    (name : String) (success : Bool) (syn desc rv : String) :
    (step s (.done g name success syn desc rv)).1.reqId = s.reqId
    ∧ (step s (.done g name success syn desc rv)).2 =
        some (.applied success name syn desc rv) := by
  subst hg
  cases success <;> simp [step, stepDone]

/-- A completion whose generation does not match the current one has no
effect and produces no observation. -/
theorem stepDone_stale (s : CoordState) (g : Nat) (hg : g ≠ s.reqId)
    (name : String) (success : Bool) (syn desc rv : String) :
    step s (.done g name success syn desc rv) = (s, none) := by
  simp [step, stepDone, hg]

/-- After two selections the generation counter is 2; from such a state,
any interleaving of the two workers' completion events produces at most
one observation per generation-2 completion, and every observation
carries the generation-2 payload. -/
theorem runEvents_two_gens (nx ny : String) (b1 b2 : Bool)
    (a1 c1 v1 a2 c2 v2 : String) :
    ∀ (evs : List Event) (s : CoordState), s.reqId = 2 →
      (∀ e ∈ evs, e = Event.done 1 nx b1 a1 c1 v1 ∨ e = Event.done 2 ny b2 a2 c2 v2) →
      (runEvents s evs).2.length ≤ evs.count (Event.done 2 ny b2 a2 c2 v2)
      ∧ ∀ o ∈ (runEvents s evs).2, o = Out.applied b2 ny a2 c2 v2 := by
  intro evs
  induction evs with
  | nil => intro s _ _; simp [runEvents]
  | cons e es ih =>
    intro s hs hmem
    have he := hmem e (List.mem_cons_self e es)
    have hmem' : ∀ x ∈ es, x = Event.done 1 nx b1 a1 c1 v1 ∨ x = Event.done 2 ny b2 a2 c2 v2 :=
      fun x hx => hmem x (List.mem_cons_of_mem e hx)
    rcases he with he | he
    · subst he
      have hstep := stepDone_stale s 1 (by omega) nx b1 a1 c1 v1
      have hrec := ih s hs hmem'
      have hcount : (Event.done 1 nx b1 a1 c1 v1 :: es).count (Event.done 2 ny b2 a2 c2 v2) =
          es.count (Event.done 2 ny b2 a2 c2 v2) := by
        rw [List.count_cons_of_ne]
        simp
      simp only [runEvents, hstep, Option.toList_none, List.nil_append, hcount]
      exact hrec
    · subst he
      have hcur := stepDone_current s 2 hs.symm ny b2 a2 c2 v2
      have hrec := ih (step s (.done 2 ny b2 a2 c2 v2)).1 (hcur.1.trans hs) hmem'
      have hcount : (Event.done 2 ny b2 a2 c2 v2 :: es).count (Event.done 2 ny b2 a2 c2 v2) =
          es.count (Event.done 2 ny b2 a2 c2 v2) + 1 := List.count_cons_self _ _
      simp only [runEvents, hcur.2, Option.toList_some, List.singleton_append, hcount]
      refine ⟨by simpa using Nat.succ_le_succ hrec.1, ?_⟩
      intro o ho
      rcases List.mem_cons.mp ho with h | h
      · exact h
      · exact hrec.2 o h

/-! ## Claims -/

/-- C5: the normalizer produces exactly these outputs:
`"KERNEL32.dll!GetProcAddress" → "GetProcAddress"`,
`"__imp_GetProcAddress" → "GetProcAddress"`,
`"_GetProcAddress@8" → "GetProcAddress"`; `looksLikeLocal` holds for
`"sub_401000"` (and for every empty or local-prefixed name); and the
coordinator starts no lookup and reports nothing for a selection whose
normalized name looks local. -/
theorem C5_normalization :
    normalizeSymbolName "KERNEL32.dll!GetProcAddress" = "GetProcAddress"
    ∧ normalizeSymbolName "__imp_GetProcAddress" = "GetProcAddress"
    ∧ normalizeSymbolName "_GetProcAddress@8" = "GetProcAddress"
    ∧ looksLikeLocal "sub_401000" = true
    ∧ (∀ n : String,
        n = "" ∨ isPrefixL "sub_".data n.data = true ∨ isPrefixL "j_sub_".data n.data = true →
        looksLikeLocal n = true)
    ∧ (∀ (s : CoordState) (raw : String),
        looksLikeLocal (pyStrip (normalizeSymbolName raw)) = true →
        (step s (.select raw)).1.worker = none ∧ (step s (.select raw)).2 = none) := by
  refine ⟨by decide, by decide, by decide, by decide, ?_, ?_⟩
  · intro n h
    unfold looksLikeLocal
    rcases h with h | h | h
    · subst h; decide
    · simp [h]
    · simp [h]
  · intro s raw h
    refine ⟨?_, ?_⟩ <;> simp [step, stepSelect, h]

/-- C5 witness: the concrete local name `"sub_401000"` is rejected and no
lookup starts for it. -/
theorem C5_normalization_witness :
    looksLikeLocal "sub_401000" = true
    ∧ (step initState (.select "sub_401000")).1.worker = none
    ∧ (step initState (.select "sub_401000")).2 = none := by
  have h := C5_normalization.2.2.2.2.2 initState "sub_401000" (by decide)
  exact ⟨C5_normalization.2.2.2.1, h.1, h.2⟩

/-- C10: when the timeout fires, only the syntax display field is
overwritten (with `"Timed out while fetching docs."`); the function-name,
description and return-value display fields keep their previous
content. -/
theorem C10_timeout_frame (s : CoordState) (h : s.timerArmed = true) :
    (step s .timeout).1.ui.syntaxText = "Timed out while fetching docs."
    ∧ (step s .timeout).1.ui.functionText = s.ui.functionText
    ∧ (step s .timeout).1.ui.descriptionText = s.ui.descriptionText
    ∧ (step s .timeout).1.ui.retvalText = s.ui.retvalText := by
  refine ⟨?_, ?_, ?_, ?_⟩ <;> simp [step, stepTimeout, h]

/-- C10 witness: a timeout firing over a populated display keeps the
function, description and return-value fields. -/
theorem C10_timeout_frame_witness :
    (step (⟨1, some ⟨1, "Beep"⟩, true, ⟨"Beep", "BOOL Beep(...)", "Plays a sound.", "Nonzero"⟩⟩ : CoordState)
        .timeout).1.ui.syntaxText = "Timed out while fetching docs."
    ∧ (step (⟨1, some ⟨1, "Beep"⟩, true, ⟨"Beep", "BOOL Beep(...)", "Plays a sound.", "Nonzero"⟩⟩ : CoordState)
        .timeout).1.ui.functionText = "Beep"
    ∧ (step (⟨1, some ⟨1, "Beep"⟩, true, ⟨"Beep", "BOOL Beep(...)", "Plays a sound.", "Nonzero"⟩⟩ : CoordState)
        .timeout).1.ui.descriptionText = "Plays a sound." := by
  have h := C10_timeout_frame
    ⟨1, some ⟨1, "Beep"⟩, true, ⟨"Beep", "BOOL Beep(...)", "Plays a sound.", "Nonzero"⟩⟩ rfl
  exact ⟨h.1, h.2.1, h.2.2.1⟩

/-- C1: a completion whose generation differs from the latest issued one
is discarded silently (no state change, no UI-context observation); and in
the two-request scenario — generation 1 issued for `x`, then generation 2
for `y` before generation 1's worker completes — any interleaving of the
two completions invokes the UI collaborator at most once, always with
generation 2's payload, never with generation 1's. -/
theorem C1_stale_results_discarded :
    (∀ (s : CoordState) (g : Nat) (name : String) (success : Bool) (syn desc rv : String),
        g ≠ s.reqId → step s (.done g name success syn desc rv) = (s, none))
    ∧ ∀ (x y : String) (b1 b2 : Bool) (a1 c1 v1 a2 c2 v2 : String) (evs : List Event),
        looksLikeLocal (pyStrip (normalizeSymbolName x)) = false →
        looksLikeLocal (pyStrip (normalizeSymbolName y)) = false →
        (∀ e ∈ evs,
          e = Event.done 1 (pyStrip (normalizeSymbolName x)) b1 a1 c1 v1 ∨
          e = Event.done 2 (pyStrip (normalizeSymbolName y)) b2 a2 c2 v2) →
        evs.count (Event.done 2 (pyStrip (normalizeSymbolName y)) b2 a2 c2 v2) ≤ 1 →
        (runEvents initState (.select x :: .select y :: evs)).2.length ≤ 1
        ∧ ∀ o ∈ (runEvents initState (.select x :: .select y :: evs)).2,
            o = Out.applied b2 (pyStrip (normalizeSymbolName y)) a2 c2 v2 := by
  refine ⟨fun s g name success syn desc rv h => stepDone_stale s g h name success syn desc rv, ?_⟩
  intro x y b1 b2 a1 c1 v1 a2 c2 v2 evs hx hy hmem hcount
  have hsx : step initState (.select x) =
      (⟨1, some ⟨1, pyStrip (normalizeSymbolName x)⟩, true, ⟨"", "", "", ""⟩⟩, none) := by
    simp [step, stepSelect, initState, hx]
  have hsy : step (⟨1, some ⟨1, pyStrip (normalizeSymbolName x)⟩, true,
      ⟨"", "", "", ""⟩⟩ : CoordState) (.select y) =
      (⟨2, some ⟨2, pyStrip (normalizeSymbolName y)⟩, true, ⟨"", "", "", ""⟩⟩, none) := by
    simp [step, stepSelect, hy]
  have hmain := runEvents_two_gens (pyStrip (normalizeSymbolName x))
      (pyStrip (normalizeSymbolName y)) b1 b2 a1 c1 v1 a2 c2 v2 evs
      ⟨2, some ⟨2, pyStrip (normalizeSymbolName y)⟩, true, ⟨"", "", "", ""⟩⟩ rfl hmem
  have hrun : (runEvents initState (.select x :: .select y :: evs)).2 =
      (runEvents (⟨2, some ⟨2, pyStrip (normalizeSymbolName y)⟩, true,
        ⟨"", "", "", ""⟩⟩ : CoordState) evs).2 := by
    simp only [runEvents, hsx, hsy, Option.toList_none, List.nil_append]
  rw [hrun]
  exact ⟨hmain.1.trans hcount, hmain.2⟩

/-- C1 witness: two concrete overlapping requests; only generation 2's
completion reaches the UI collaborator. -/
theorem C1_stale_results_discarded_witness :
    (runEvents initState
      [.select "Beep", .select "Sleep",
       .done 1 "Beep" true "sa" "da" "ra",
       .done 2 "Sleep" true "sb" "db" "rb"]).2.length ≤ 1
    ∧ ∀ o ∈ (runEvents initState
      [.select "Beep", .select "Sleep",
       .done 1 "Beep" true "sa" "da" "ra",
       .done 2 "Sleep" true "sb" "db" "rb"]).2,
        o = Out.applied true "Sleep" "sb" "db" "rb" := by
  have h := C1_stale_results_discarded.2 "Beep" "Sleep" true true
      "sa" "da" "ra" "sb" "db" "rb"
      [.done 1 "Beep" true "sa" "da" "ra", .done 2 "Sleep" true "sb" "db" "rb"]
      (by decide) (by decide) (by decide) (by decide)
  exact h

/-- C2 counterexample: the claim "a later completion of that same
(now-canceled) worker never triggers a second UI update for the same
generation" is false on the code.  `_on_timeout` does not advance
`_req_id`, and a canceled `ScrapperThread` whose `run` already passed its
cancellation-free body still reports via `finish`/`on_done`; its
generation still matches, so after the timeout indicator the same
generation updates the UI a second time. -/
theorem C2_timeout_counterexample :
    (runEvents initState
      [.select "Beep", .timeout, .done 1 "Beep" true "BOOL Beep(...)" "Plays a sound." "Nonzero"]).2 =
      [Out.timedOut, Out.applied true "Beep" "BOOL Beep(...)" "Plays a sound." "Nonzero"]
    ∧ (runEvents initState
      [.select "Beep", .timeout, .done 1 "Beep" true "BOOL Beep(...)" "Plays a sound." "Nonzero"]).1.ui =
      ⟨"Beep", "BOOL Beep(...)", "Plays a sound.", "Nonzero"⟩ := by
  constructor <;> decide

/-- C2 (amended): when the timeout fires, the UI collaborator receives the
distinct timed-out indicator exactly once for that firing (the single-shot
timer produces nothing further until rearmed); however, a later successful
completion of the same now-canceled worker still passes the generation
check — the generation counter is not advanced on timeout — and does
trigger a further UI update for the same generation. -/
theorem C2_timeout_amended (s : CoordState) (name syn desc rv : String)
    (h : s.timerArmed = true) :
    (step s .timeout).2 = some .timedOut
    ∧ (step s .timeout).1.timerArmed = false
    ∧ step (step s .timeout).1 .timeout = ((step s .timeout).1, none)
    ∧ (step (step s .timeout).1 (.done s.reqId name true syn desc rv)).2 =
        some (.applied true name syn desc rv)
    ∧ (step (step s .timeout).1 (.done s.reqId name true syn desc rv)).1.ui =
        ⟨name, syn, desc, rv⟩ := by
  refine ⟨?_, ?_, ?_, ?_, ?_⟩ <;> simp [step, stepTimeout, stepDone, h]

/-- C2 witness for the amended claim, at a concrete armed state. -/
theorem C2_timeout_amended_witness :
    (step (⟨1, some ⟨1, "Beep"⟩, true, ⟨"", "", "", ""⟩⟩ : CoordState) .timeout).2 = some .timedOut
    ∧ (step (⟨1, some ⟨1, "Beep"⟩, true, ⟨"", "", "", ""⟩⟩ : CoordState) .timeout).1.timerArmed = false
    ∧ step (step (⟨1, some ⟨1, "Beep"⟩, true, ⟨"", "", "", ""⟩⟩ : CoordState) .timeout).1 .timeout =
        ((step (⟨1, some ⟨1, "Beep"⟩, true, ⟨"", "", "", ""⟩⟩ : CoordState) .timeout).1, none)
    ∧ (step (step (⟨1, some ⟨1, "Beep"⟩, true, ⟨"", "", "", ""⟩⟩ : CoordState) .timeout).1
        (.done 1 "Beep" true "s" "d" "r")).2 = some (.applied true "Beep" "s" "d" "r")
    ∧ (step (step (⟨1, some ⟨1, "Beep"⟩, true, ⟨"", "", "", ""⟩⟩ : CoordState) .timeout).1
        (.done 1 "Beep" true "s" "d" "r")).1.ui = ⟨"Beep", "s", "d", "r"⟩ :=
  C2_timeout_amended ⟨1, some ⟨1, "Beep"⟩, true, ⟨"", "", "", ""⟩⟩ "Beep" "s" "d" "r" rfl

/-- A network-path outcome is either the empty negative result or a
success (the `ScrapperThread` fields are only assigned in the success
branch). -/
theorem fetchOutcome_cases (fetch : String → Except Unit Scrapper) (name : String) :
    fetchOutcome fetch name = ⟨false, "", "", ""⟩
    ∨ (fetchOutcome fetch name).success = true := by
  unfold fetchOutcome
  rcases fetch name with e | scr
  · exact Or.inl rfl
  · by_cases hc : (scr.page.isNone || !(foundFunctionDocs scr)) = true
    · simp [hc]
    · simp [hc]

/-- A network-path outcome that is not a success carries empty string
fields. -/
theorem fetchOutcome_of_not_success (fetch : String → Except Unit Scrapper)
    (name : String) (h : (fetchOutcome fetch name).success = false) :
    fetchOutcome fetch name = ⟨false, "", "", ""⟩ := by
  rcases fetchOutcome_cases fetch name with h1 | h1
  · exact h1
  · rw [h] at h1
    exact Bool.noConfusion h1

/-- Reading back the entry the worker just wrote reproduces the worker's
result fields on success, and the empty negative result otherwise. -/
theorem cacheHit_insert (c : Cache) (name : String) (r : WorkerResult) :
    cacheHit (cacheInsert c name (mkCacheEntry r)) name =
      some (if r.success then r else ⟨false, "", "", ""⟩) := by
  rcases r with ⟨s, sy, d, rv⟩
  cases s <;>
    simp [cacheHit, cacheInsert, mkCacheEntry, hitOfEntry, List.lookup, jsonStrOr]

/-- C3: a lookup that reaches the network path (cache miss) and whose
fetch fails, raises, or yields a page without a Syntax section produces
`found = false` with empty syntax, description and return-value fields,
and persists exactly that negative entry into the cache. -/
theorem C3_negative_cached (fetch : String → Except Unit Scrapper) (c : Cache)
    (name : String) (hname : name ≠ "") (hmiss : c name = none)
    (hfail : fetch name = .error () ∨
      ∃ scr, fetch name = .ok scr ∧ (scr.page = none ∨ foundFunctionDocs scr = false)) :
    (workerRun fetch c name).1 = ⟨false, "", "", ""⟩
    ∧ ((workerRun fetch c name).2.1) name =
        some (.obj [("found", .bool false), ("syntax", .str ""),
                    ("description", .str ""), ("return_value", .str "")])
    ∧ (workerRun fetch c name).2.2 = true := by
  have hout : fetchOutcome fetch name = ⟨false, "", "", ""⟩ := by
    rcases hfail with h | ⟨scr, hok, hcase⟩
    · simp [fetchOutcome, h]
    · rcases hcase with hp | hf
      · simp [fetchOutcome, hok, hp]
      · simp [fetchOutcome, hok, hf]
  have hhit : cacheHit c name = none := by simp [cacheHit, hmiss]
  refine ⟨?_, ?_, ?_⟩ <;> simp [workerRun, hname, hhit, hout, cacheInsert, mkCacheEntry]

/-- C3 witness: a failing fetch on an empty cache yields and persists the
empty negative entry. -/
theorem C3_negative_cached_witness :
    (workerRun (fun _ => .error ()) (fun _ => none) "Beep").1 = ⟨false, "", "", ""⟩
    ∧ ((workerRun (fun _ => .error ()) (fun _ => none) "Beep").2.1) "Beep" =
        some (.obj [("found", .bool false), ("syntax", .str ""),
                    ("description", .str ""), ("return_value", .str "")])
    ∧ (workerRun (fun _ => .error ()) (fun _ => none) "Beep").2.2 = true :=
  C3_negative_cached (fun _ => .error ()) (fun _ => none) "Beep"
    (by decide) rfl (Or.inl rfl)

/-- C4: running the lookup twice in sequence for the same name performs
no network fetch on the second call, which returns fields identical to the
first call's result and leaves the cache unchanged; and a lookup for a key
whose stored entry is well formed (the shape the worker itself writes)
never overwrites it — it does not write the cache at all. -/
theorem C4_lookup_idempotent (fetch fetch2 : String → Except Unit Scrapper)
    (c : Cache) (name : String) :
    workerRun fetch2 (workerRun fetch c name).2.1 name =
      ((workerRun fetch c name).1, (workerRun fetch c name).2.1, false)
    ∧ (∀ e, c name = some e → wellFormedEntry e →
        (workerRun fetch c name).2.1 = c ∧ (workerRun fetch c name).2.2 = false) := by
  constructor
  · by_cases hname : name = ""
    · simp [workerRun, hname]
    · cases hhit : cacheHit c name with
      | some r => simp [workerRun, hname, hhit]
      | none =>
        have hfirst : workerRun fetch c name =
            (fetchOutcome fetch name,
              cacheInsert c name (mkCacheEntry (fetchOutcome fetch name)), true) := by
          simp [workerRun, hname, hhit]
        rw [hfirst]
        have hhit2 := cacheHit_insert c name (fetchOutcome fetch name)
        rcases fetchOutcome_cases fetch name with hneg | hpos
        · rw [hneg] at hhit2 ⊢
          rw [ite_self] at hhit2
          simp [workerRun, hname, hhit2]
        · rw [if_pos hpos] at hhit2
          simp [workerRun, hname, hhit2]
  · intro e he hwf
    obtain ⟨fields, b, rfl, hfound⟩ := hwf
    by_cases hname : name = ""
    · simp [workerRun, hname]
    · have hhit : (cacheHit c name).isSome = true := by
        cases b <;> simp [cacheHit, he, hitOfEntry, hfound]
      cases hh : cacheHit c name with
      | none => rw [hh] at hhit; exact absurd hhit (by simp)
      | some r => simp [workerRun, hname, hh]

/-- C4 witness: a miss-then-hit pair on an empty cache, and a no-write hit
on a cache that already holds a well-formed entry for the key. -/
theorem C4_lookup_idempotent_witness :
    workerRun (fun _ => .error ())
        (workerRun (fun _ => .error ()) (fun _ => none) "Beep").2.1 "Beep" =
      ((workerRun (fun _ => .error ()) (fun _ => none) "Beep").1,
        (workerRun (fun _ => .error ()) (fun _ => none) "Beep").2.1, false)
    ∧ ((workerRun (fun _ => .error ())
          (fun q => if q = "Beep" then
            some (.obj [("found", .bool true), ("syntax", .str "BOOL Beep(...)")]) else none)
          "Beep").2.1 =
        (fun q => if q = "Beep" then
          some (.obj [("found", .bool true), ("syntax", .str "BOOL Beep(...)")]) else none)
      ∧ (workerRun (fun _ => .error ())
          (fun q => if q = "Beep" then
            some (.obj [("found", .bool true), ("syntax", .str "BOOL Beep(...)")]) else none)
          "Beep").2.2 = false) := by
  refine ⟨(C4_lookup_idempotent (fun _ => .error ()) (fun _ => .error ()) (fun _ => none) "Beep").1, ?_⟩
  exact (C4_lookup_idempotent (fun _ => .error ()) (fun _ => .error ()) _ "Beep").2
    _ rfl ⟨[("found", .bool true), ("syntax", .str "BOOL Beep(...)")], true, rfl, rfl⟩

/-- C9: a cache-file entry for the requested key whose shape is malformed
(not a dict, or its `found` field not exactly a boolean) is treated as a
miss: the worker fetches from the network and overwrites the malformed
entry with the new outcome. -/
theorem C9_malformed_refetch (fetch : String → Except Unit Scrapper) (c : Cache)
    (name : String) (e : Json) (hname : name ≠ "") (he : c name = some e)
    (hmal : ¬ wellFormedEntry e) :
    (workerRun fetch c name).2.2 = true
    ∧ ((workerRun fetch c name).2.1) name =
        some (mkCacheEntry (fetchOutcome fetch name)) := by
  have hhit : cacheHit c name = none := by
    unfold cacheHit
    rw [he, Option.some_bind]
    cases e with
    | null => rfl
    | bool b => rfl
    | str s => rfl
    | num n => rfl
    | obj fields =>
      simp only [hitOfEntry]
      cases hl : List.lookup "found" fields with
      | none => rfl
      | some v =>
        cases v with
        | null => rfl
        | str s => rfl
        | num n => rfl
        | obj f2 => rfl
        | bool b => exact absurd ⟨fields, b, rfl, hl⟩ hmal
  constructor <;> simp [workerRun, hname, hhit, cacheInsert]

/-- C9 witness: a non-dict entry for the key is refetched and overwritten
with the fresh (here: negative) outcome. -/
theorem C9_malformed_refetch_witness :
    (workerRun (fun _ => .error ())
        (fun q => if q = "Beep" then some (.str "garbage") else none) "Beep").2.2 = true
    ∧ ((workerRun (fun _ => .error ())
        (fun q => if q = "Beep" then some (.str "garbage") else none) "Beep").2.1) "Beep" =
        some (mkCacheEntry (fetchOutcome (fun _ => .error ()) "Beep")) := by
  refine C9_malformed_refetch (fun _ => .error ()) _ "Beep" (.str "garbage") (by decide) rfl ?_
  rintro ⟨fields, b, hobj, -⟩
  exact Json.noConfusion hobj

/-- A base name with `"W"` appended is a non-empty string, and differs
from any string whose last character is `'A'`. -/
theorem append_W_ne (l : List Char) (name : String)
    (h : name.data.getLast? = some 'A') :
    ((String.mk l ++ "W") != "") = true ∧ ((String.mk l ++ "W") != name) = true := by
  have hdata : (String.mk l ++ "W").data = l ++ ['W'] := rfl
  constructor
  · rw [bne_iff_ne]
    intro hcon
    have hd := congrArg String.data hcon
    rw [hdata] at hd
    simp at hd
  · rw [bne_iff_ne]
    intro hcon
    have hd := congrArg (fun s : String => s.data.getLast?) hcon
    simp only at hd
    rw [hdata, List.getLast?_append_cons, h] at hd
    exact absurd (Option.some.inj hd) (by decide)

/-- C6: when a requested name ends in `A`, its direct search finds no page
but the base (suffix stripped) does, the resolved name is `base ++ "W"`
and the returned description is prefixed with the resolution note naming
both the resolved and the requested names; when a name ending in `W` is
resolved through the same fallback, the resolved name is the original
request and no note is added. -/
theorem C6_ansi_fallback (env : DocsEnv) (name : String) (p : Page) :
    (name.data.getLast? = some 'A' →
      searchPage env name = none →
      searchPage env (String.mk name.data.dropLast) = some p →
      (mkScrapper env name).resolvedName = some (String.mk name.data.dropLast ++ "W")
      ∧ (p.syntaxText.isSome = true →
          getDescription (mkScrapper env name) true =
            "[Docs resolved to: " ++ (String.mk name.data.dropLast ++ "W") ++
              " (requested: " ++ name ++ ")]\n\n" ++ p.ogDescription))
    ∧ (name.data.getLast? = some 'W' →
      searchPage env name = none →
      searchPage env (String.mk name.data.dropLast) = some p →
      (mkScrapper env name).resolvedName = some name
      ∧ (p.syntaxText.isSome = true →
          getDescription (mkScrapper env name) true = p.ogDescription)) := by
  constructor
  · intro hA hs1 hs2
    have hscr : mkScrapper env name =
        ⟨name, some (String.mk name.data.dropLast ++ "W"), some p⟩ := by
      simp [mkScrapper, hs1, hA, hs2]
    refine ⟨by rw [hscr], ?_⟩
    intro hsyn
    rw [hscr]
    have hne := append_W_ne name.data.dropLast name hA
    simp [getDescription, getSyntaxText, Option.isNone_iff_eq_none, hne.1, hne.2,
      Option.isSome_iff_ne_none.mp hsyn, String.append_assoc]
  · intro hW hs1 hs2
    have hscr : mkScrapper env name = ⟨name, some name, some p⟩ := by
      have hAW : ¬ ('W' = 'A') := by decide
      simp [mkScrapper, hs1, hW, hs2, hAW]
    refine ⟨by rw [hscr], ?_⟩
    intro hsyn
    rw [hscr]
    simp [getDescription, getSyntaxText, Option.isNone_iff_eq_none,
      Option.isSome_iff_ne_none.mp hsyn]

/-- C6 witness: requesting `"OpenMutexA"` when only `"OpenMutex"`'s page
is documented resolves to `"OpenMutexW"` with the resolution note. -/
theorem C6_ansi_fallback_witness :
    (mkScrapper openMutexEnv "OpenMutexA").resolvedName = some "OpenMutexW"
    ∧ getDescription (mkScrapper openMutexEnv "OpenMutexA") true =
        "[Docs resolved to: OpenMutexW (requested: OpenMutexA)]\n\nOpens an existing named mutex object." := by
  have h := (C6_ansi_fallback openMutexEnv "OpenMutexA" openMutexPage).1
    (by decide) (by decide) (by decide)
  exact ⟨h.1.trans (by decide), (h.2 (by decide)).trans (by decide)⟩

/-- C7: the fetcher's selection loop picks exactly the first entry of the
ordered result list that satisfies all acceptance conditions (URL present,
under the platform API documentation path after resolving a relative URL
against the documentation host, title starting with the candidate name,
and no lowercase letter right after the matched prefix), and when no entry
satisfies them no page is found. -/
theorem C7_result_selection (name : String) (results : List SearchEntry) :
    selectDocUrl name results =
      (results.find? (goodEntry name)).map (fun r => resolveUrl (entryUrl r))
    ∧ (results.find? (goodEntry name) = none →
        ∀ fetchPage, initFromName fetchPage name results = none) := by
  have main : ∀ rs : List SearchEntry, selectDocUrl name rs =
      (rs.find? (goodEntry name)).map (fun r => resolveUrl (entryUrl r)) := by
    intro rs
    induction rs with
    | nil => rfl
    | cons r rest ih =>
      by_cases h1 : pyStrip (r.url.getD "") = ""
      · have hg : goodEntry name r = false := by
          simp [goodEntry, entryUrl, h1]
        simp [selectDocUrl, h1, hg, ih]
      · by_cases h2 : subListOf WIN32_API_PATH.data (resolveUrl (pyStrip (r.url.getD ""))).data = true
        · by_cases h3 : isPrefixL name.data (pyStrip (r.title.getD "")).data = true
          · by_cases h4 : charAfterIsLower (pyStrip (r.title.getD "")) name.length = true
            · have hg : goodEntry name r = false := by
                simp [goodEntry, entryTitle, h4]
              simp [selectDocUrl, h1, h2, h3, h4, hg, ih]
            · have hg : goodEntry name r = true := by
                simp [goodEntry, entryUrl, entryTitle, h1, h2, h3, h4]
              simp [selectDocUrl, h1, h2, h3, h4, hg, entryUrl]
          · have hg : goodEntry name r = false := by
              simp [goodEntry, entryTitle, h3]
            simp [selectDocUrl, h1, h2, h3, hg, ih]
        · have hg : goodEntry name r = false := by
            simp [goodEntry, entryUrl, h2]
          simp [selectDocUrl, h1, h2, hg, ih]
  refine ⟨main results, fun hnone fetchPage => ?_⟩
  simp [initFromName, main results, hnone]

/-- C7 witness: `"Open"` against a result list whose only title is
`"Opened files in a shared folder"` selects nothing — the character after
the matched prefix is lowercase — so no page is found. -/
theorem C7_result_selection_witness :
    selectDocUrl "Open" openDemoResults =
      (openDemoResults.find? (goodEntry "Open")).map (fun r => resolveUrl (entryUrl r))
    ∧ initFromName (fun _ => openMutexPage) "Open" openDemoResults = none := by
  have h := C7_result_selection "Open" openDemoResults
  exact ⟨h.1, h.2 (by decide) _⟩

/-- C8: every cache persistence writes the full serialized mapping to a
fresh temporary file created in the target's directory and atomically
renames it onto the target: along the whole operation the target path
only ever holds its old content or the complete new serialization; on
success the target holds the new serialization and the temporary file is
gone; on failure the target is untouched, at most the temporary file
lingers, and the best-effort cleanup (modelled total, for either value of
`removeOk`) never raises. -/
theorem C8_atomic_write (mk : FS → String → String) (encode : Json → String)
    (fs : FS) (path : String) (obj : Json) (dumpOk removeOk : Bool)
    (hfresh : fs (mk fs (dirName path)) = none)
    (hne : mk fs (dirName path) ≠ path) :
    (∀ g ∈ (atomicWriteJson mk encode fs path obj dumpOk removeOk).2.2,
        g path = fs path ∨ g path = some (encode obj))
    ∧ (dumpOk = true →
        (atomicWriteJson mk encode fs path obj dumpOk removeOk).1 = .ok ()
        ∧ (atomicWriteJson mk encode fs path obj dumpOk removeOk).2.1 path = some (encode obj)
        ∧ (atomicWriteJson mk encode fs path obj dumpOk removeOk).2.1 (mk fs (dirName path)) = none
        ∧ ∀ q, q ≠ path → q ≠ mk fs (dirName path) →
            (atomicWriteJson mk encode fs path obj dumpOk removeOk).2.1 q = fs q)
    ∧ (dumpOk = false →
        (atomicWriteJson mk encode fs path obj dumpOk removeOk).1 = .error ()
        ∧ (atomicWriteJson mk encode fs path obj dumpOk removeOk).2.1 path = fs path
        ∧ (∀ q, q ≠ mk fs (dirName path) →
            (atomicWriteJson mk encode fs path obj dumpOk removeOk).2.1 q = fs q)
        ∧ (removeOk = true →
            ∀ q, (atomicWriteJson mk encode fs path obj dumpOk removeOk).2.1 q = fs q)) := by
  have hne' : path ≠ mk fs (dirName path) := Ne.symm hne
  cases dumpOk with
  | true =>
    refine ⟨?_, fun _ => ⟨rfl, ?_, ?_, ?_⟩, fun hf => Bool.noConfusion hf⟩
    · intro g hg
      simp only [atomicWriteJson, if_true, List.mem_cons, List.not_mem_nil,
        or_false] at hg
      rcases hg with hg | hg | hg | hg
      all_goals subst hg
      · exact Or.inl (by simp [fsWrite, hne'])
      · exact Or.inl (by simp [fsWrite, hne'])
      · refine Or.inr ?_
        simp [fsReplace, fsWrite]
      · refine Or.inr ?_
        simp [cleanupTmp, fsReplace, fsWrite, hne, hne']
    · simp [atomicWriteJson, cleanupTmp, fsReplace, fsWrite, hne, hne']
    · simp [atomicWriteJson, cleanupTmp, fsReplace, fsWrite, hne, hne']
    · intro q hq1 hq2
      simp [atomicWriteJson, cleanupTmp, fsReplace, fsWrite, hne, hne', hq1, hq2]
  | false =>
    refine ⟨?_, fun ht => Bool.noConfusion ht, fun _ => ⟨rfl, ?_, ?_, ?_⟩⟩
    · intro g hg
      simp only [atomicWriteJson, Bool.false_eq_true, if_false, List.mem_cons,
        List.not_mem_nil, or_false] at hg
      rcases hg with hg | hg
      all_goals subst hg
      · exact Or.inl (by simp [fsWrite, hne'])
      · refine Or.inl ?_
        cases removeOk <;> simp [cleanupTmp, fsWrite, hne']
    · cases removeOk <;> simp [atomicWriteJson, cleanupTmp, fsWrite, hne']
    · intro q hq
      cases removeOk <;> simp [atomicWriteJson, cleanupTmp, fsWrite, hne', hq]
    · intro hr q
      subst hr
      by_cases hq : q = mk fs (dirName path)
      · subst hq
        simp [atomicWriteJson, cleanupTmp, fsWrite, hfresh]
      · simp [atomicWriteJson, cleanupTmp, fsWrite, hq]

/-- C8 witness: a concrete atomic write into an empty file system. -/
theorem C8_atomic_write_witness :
    (∀ g ∈ (atomicWriteJson (fun _ _ => "plugin/windoc_a.json") (fun _ => "serialized")
        (fun _ => none) "plugin/cache.json" (.obj []) true true).2.2,
        g "plugin/cache.json" = (fun _ => (none : Option String)) "plugin/cache.json"
        ∨ g "plugin/cache.json" = some "serialized")
    ∧ (atomicWriteJson (fun _ _ => "plugin/windoc_a.json") (fun _ => "serialized")
        (fun _ => none) "plugin/cache.json" (.obj []) true true).1 = .ok ()
    ∧ (atomicWriteJson (fun _ _ => "plugin/windoc_a.json") (fun _ => "serialized")
        (fun _ => none) "plugin/cache.json" (.obj []) true true).2.1 "plugin/cache.json" =
        some "serialized"
    ∧ (atomicWriteJson (fun _ _ => "plugin/windoc_a.json") (fun _ => "serialized")
        (fun _ => none) "plugin/cache.json" (.obj []) true true).2.1 "plugin/windoc_a.json" =
        none := by
  have h := C8_atomic_write (fun _ _ => "plugin/windoc_a.json") (fun _ => "serialized")
    (fun _ => none) "plugin/cache.json" (.obj []) true true rfl (by decide)
  exact ⟨h.1, (h.2.1 rfl).1, (h.2.1 rfl).2.1, (h.2.1 rfl).2.2.1⟩

end BetterWinDocs
